import Mathlib

/-!
# Verification of the notedeck image pipeline (`src/images.rs`)

Shallow embedding of the image acquisition and caching pipeline.  Machine
`f32` arithmetic is modelled by exact rationals (`ℚ`); the square-root
function (`f32::sqrt`), which has no exact rational counterpart, is a
parameter `sqrt : ℚ → ℚ` of every definition that uses it, so theorems
quantify over every possible rounding behaviour of the hardware sqrt.
Rust `u8` channel values are modelled as `ℕ` with an explicit saturating
truncation (`truncU8`) mirroring Rust's `as u8` cast on floats.
-/

namespace Notedeck

/-! ## Definitions: the embedded data model and operations -/

/-- Model of `egui::Color32`: four 8-bit channels (red, green, blue, alpha),
stored as natural numbers. `Color32::from_rgba_premultiplied` stores the four
given values verbatim, so the constructor models it directly. -/
structure Color32 where
  r : ℕ
  g : ℕ
  b : ℕ
  a : ℕ
deriving DecidableEq, Repr

/-- `Color32::TRANSPARENT` = `from_rgba_premultiplied(0, 0, 0, 0)`. -/
def Color32.TRANSPARENT : Color32 := ⟨0, 0, 0, 0⟩

/-- A channel value that fits in a `u8`, as every channel of a real
`Color32` does. -/
def Color32.Valid (p : Color32) : Prop :=
  p.r ≤ 255 ∧ p.g ≤ 255 ∧ p.b ≤ 255 ∧ p.a ≤ 255

instance (p : Color32) : Decidable p.Valid := by
  unfold Color32.Valid; infer_instance

/-- Model of `egui::ColorImage`: a `size: [usize; 2]` pair and a flat
row-major pixel vector. -/
structure ColorImage where
  size0 : ℕ
  size1 : ℕ
  pixels : List Color32
deriving DecidableEq, Repr

/-- Rust's saturating float-to-`u8` cast `(q : f32) as u8`: truncation toward
zero clamped into `[0, 255]` (negative values and NaN go to 0). -/
def truncU8 (q : ℚ) : ℕ := (min ⌊q⌋ 255).toNat

/-- The body of the `for (pixnum, pixel)` loop of `round_image`
(`src/images.rs:23-59`), as a function of the side length `S = image.size[0]`,
the pixel index `pixnum` and the pixel value.  `sqrt` stands for `f32::sqrt`. -/
def roundPixel (sqrt : ℚ → ℚ) (S : ℕ) (pixnum : ℕ) (pixel : Color32) : Color32 :=
  let uy := pixnum / S
  let y : ℚ := (uy : ℚ)
  let edge_radius : ℚ := (S : ℚ) / 2
  let y_offset := edge_radius - y
  let ux := pixnum % S
  let x : ℚ := (ux : ℚ)
  let x_offset := edge_radius - x
  let pixel_radius_squared : ℚ := x_offset * x_offset + y_offset * y_offset
  if pixel_radius_squared ≤ edge_radius * edge_radius then
    let pixel_radius : ℚ := sqrt pixel_radius_squared
    let distance := edge_radius - pixel_radius
    if distance ≤ 1 then
      ⟨truncU8 ((pixel.r : ℚ) * distance), truncU8 ((pixel.g : ℚ) * distance),
       truncU8 ((pixel.b : ℚ) * distance), truncU8 ((pixel.a : ℚ) * distance)⟩
    else
      pixel
  else
    Color32.TRANSPARENT

/-- `round_image` (`src/images.rs:15-60`): applies `roundPixel` to every pixel
in place, with `S = image.size[0]`. -/
def round_image (sqrt : ℚ → ℚ) (image : ColorImage) : ColorImage :=
  { image with pixels := image.pixels.mapIdx (roundPixel sqrt image.size0) }

/-- A computable stand-in for `f32::sqrt` used to instantiate witnesses and
counterexamples: exact on perfect squares (in particular `ratSqrt 0 = 0`),
a floor-based approximation elsewhere. -/
def ratSqrt (q : ℚ) : ℚ :=
  if q ≤ 0 then 0 else ((Nat.sqrt (q.num.toNat * q.den) : ℚ)) / (q.den : ℚ)

/-- The claim's description of the per-pixel transform, transcribed from the
spec's words (§4.4): with `r = S/2`, `y = index / S`, `x = index % S`, if
`(r-x)² + (r-y)² > r²` the pixel becomes fully transparent; otherwise with
`d = sqrt((r-x)² + (r-y)²)` and `distance_to_edge = r - d`, if
`distance_to_edge ≤ 1.0` every channel (including alpha) is scaled by
`distance_to_edge` and truncated, and if `distance_to_edge > 1.0` the pixel
is left unmodified. -/
def roundPixelSpec (sqrt : ℚ → ℚ) (S : ℕ) (index : ℕ) (pixel : Color32) : Color32 :=
  let r : ℚ := (S : ℚ) / 2
  let y : ℚ := ((index / S : ℕ) : ℚ)
  let x : ℚ := ((index % S : ℕ) : ℚ)
  let d2 : ℚ := (r - x) * (r - x) + (r - y) * (r - y)
  if d2 > r * r then
    ⟨0, 0, 0, 0⟩
  else
    let d := sqrt d2
    let distance_to_edge := r - d
    if distance_to_edge ≤ 1 then
      ⟨truncU8 ((pixel.r : ℚ) * distance_to_edge), truncU8 ((pixel.g : ℚ) * distance_to_edge),
       truncU8 ((pixel.b : ℚ) * distance_to_edge), truncU8 ((pixel.a : ℚ) * distance_to_edge)⟩
    else
      pixel

/-- Spec-side whole-image transform built from `roundPixelSpec`. -/
def roundImageSpec (sqrt : ℚ → ℚ) (image : ColorImage) : ColorImage :=
  { image with pixels := image.pixels.mapIdx (roundPixelSpec sqrt image.size0) }

/-- Concrete side-8 test image: 64 identical valid pixels. -/
def img8 : ColorImage := ⟨8, 8, List.replicate 64 ⟨10, 20, 30, 40⟩⟩

/-- `image::imageops::FilterType`, the resampling filters of the `image`
crate. -/
inductive FilterType
  | Nearest
  | Triangle
  | CatmullRom
  | Gaussian
  | Lanczos3
deriving DecidableEq, Repr

/-- Whether a filter belongs to the cubic (bicubic-interpolation) family:
exactly Catmull-Rom among the crate's filters. -/
def FilterType.cubicFamily : FilterType → Bool
  | .CatmullRom => true
  | _ => false

/-- Model of `image::DynamicImage`: dimensions, a pixel lookup (row-major
coordinates), and whether the underlying sample buffer is 8-bit per channel
(`as_flat_samples_u8` returns `Some` exactly for the 8-bit variants).  The
per-pixel colour conversions of the crate are modelled as the identity on
channel values; no claim depends on per-channel colour arithmetic. -/
structure DynImage where
  width : ℕ
  height : ℕ
  pix : ℕ → ℕ → Color32
  u8Based : Bool

/-- `DynamicImage::crop_imm(x, y, width, height)`: an immutable view of the
given sub-rectangle; the crate clamps the rectangle to the image bounds. -/
def DynImage.crop_imm (img : DynImage) (x y w h : ℕ) : DynImage :=
  { width := min w (img.width - x)
    height := min h (img.height - y)
    pix := fun i j => img.pix (x + i) (y + j)
    u8Based := img.u8Based }

/-- `u32::MAX`. -/
def u32Max : ℕ := 4294967295

/-- The `image` crate's `resize_dimensions(width, height, nwidth, nheight,
fill)`: the output dimensions of an aspect-ratio-preserving resize.  The
crate computes the ratios in `f64`; here they are exact rationals, and `f64`'s
`round` (round half away from zero, always on nonnegative values here) is the
integer rounding `round` on `ℚ`. -/
def resizeDimensions (width height nwidth nheight : ℕ) (fill : Bool) : ℕ × ℕ :=
  let wfrac : ℚ := (nwidth : ℚ) / (width : ℚ)
  let hfrac : ℚ := (nheight : ℚ) / (height : ℚ)
  let frac : ℚ := if fill then max wfrac hfrac else min wfrac hfrac
  let nw : ℕ := max (round ((width : ℚ) * frac)).toNat 1
  let nh : ℕ := max (round ((height : ℚ) * frac)).toNat 1
  if nw > u32Max then
    let frac2 : ℚ := (u32Max : ℚ) / (width : ℚ)
    (u32Max, max (round ((height : ℚ) * frac2)).toNat 1)
  else if nh > u32Max then
    let frac2 : ℚ := (u32Max : ℚ) / (height : ℚ)
    (max (round ((width : ℚ) * frac2)).toNat 1, u32Max)
  else
    (nw, nh)

/-- The type of the abstract resampler supplying the pixel values produced by
`image::DynamicImage::resize`: given the filter, the output dimensions and the
source image, it yields the output pixel lookup.  The claims never inspect
resampled pixel values, so it is a parameter. -/
def Resampler : Type := FilterType → ℕ → ℕ → DynImage → ℕ → ℕ → Color32

/-- `DynamicImage::resize(nwidth, nheight, filter)`: preserves the aspect
ratio (dimensions from `resize_dimensions` with `fill = false`), resamples
with the given filter. -/
def DynImage.resize (resample : Resampler) (img : DynImage)
    (nwidth nheight : ℕ) (filter : FilterType) : DynImage :=
  let d := resizeDimensions img.width img.height nwidth nheight false
  { width := d.1
    height := d.2
    pix := resample filter d.1 d.2 img
    u8Based := img.u8Based }

/-- `DynamicImage::into_rgba8()`: converts any variant into an 8-bit RGBA
buffer (channel values modelled as unchanged). -/
def DynImage.into_rgba8 (img : DynImage) : DynImage :=
  { img with u8Based := true }

/-- `egui::ColorImage::from_rgba_unmultiplied([w, h], samples)` applied to the
flat RGBA samples of a buffer: a `ColorImage` of the same dimensions whose
row-major pixel list reads off the buffer (per-channel unmultiplied→
premultiplied conversion modelled as the identity). -/
def ColorImage.from_rgba_unmultiplied (w h : ℕ) (samples : DynImage) : ColorImage :=
  { size0 := w
    size1 := h
    pixels := (List.range (w * h)).map (fun i => samples.pix (i % w) (i / w)) }

/-- The square-cropping step of `process_pfp_bitmap` (`src/images.rs:66-75`),
extracted from the two `if` branches mutating `*image`. -/
def pfpCrop (image : DynImage) : DynImage :=
  let smaller := min image.width image.height
  if image.width > smaller then
    let excess := image.width - smaller
    image.crop_imm (excess / 2) 0 (image.width - excess) image.height
  else if image.height > smaller then
    let excess := image.height - smaller
    image.crop_imm 0 (excess / 2) image.width (image.height - excess)
  else
    image

/-- The filter passed to `resize` at `src/images.rs:76`. -/
def pfpFilter : FilterType := FilterType.CatmullRom

/-- `process_pfp_bitmap(size, image)` (`src/images.rs:62-87`): square-crop,
resize to `size × size` with Catmull-Rom, convert to RGBA8, build a
`ColorImage`, apply the circular mask. -/
def process_pfp_bitmap (sqrt : ℚ → ℚ) (resample : Resampler)
    (size : ℕ) (image : DynImage) : ColorImage :=
  let cropped := pfpCrop image
  let resized := cropped.resize resample size size pfpFilter
  let image_buffer := resized.into_rgba8
  let color_image :=
    ColorImage.from_rgba_unmultiplied image_buffer.width image_buffer.height image_buffer
  round_image sqrt color_image

/-- A trivial concrete resampler (every output pixel transparent), used only
to instantiate witnesses. -/
def resampleT : Resampler := fun _ _ _ _ _ _ => Color32.TRANSPARENT

/-- A concrete 2×2 8-bit image. -/
def dyn2 : DynImage := ⟨2, 2, fun _ _ => ⟨0, 0, 0, 0⟩, true⟩

/-- Witness for `process_pfp_bitmap_pipeline` at the end-to-end scenario's
concrete shape: a 128×96 image and `target_size = 64`. -/
def dyn128x96 : DynImage := ⟨128, 96, fun _ _ => ⟨1, 2, 3, 4⟩, true⟩

/-- Rust's `str::starts_with` on strings, as a list-level prefix test (which
is what byte-wise `starts_with` computes on the UTF-8 data). -/
def strStartsWith (s pat : String) : Bool := pat.data.isPrefixOf s.data

/-- Modelled from the spec (§7): the error taxonomy of `crate::error::Error`
(`error.rs` is not under `src/`): `Generic` wraps transport failures and the
formatted unsupported-content-type message keeps the declared content type;
decode failures carry the decoder's message. -/
inductive ImgError
  | Generic (msg : String)
  | Io (msg : String)
  | Raster (msg : String)
  | Vector (msg : String)
  | UnsupportedContentType (contentType : String)
deriving DecidableEq, Repr

/-- Model of `ehttp::Response`: the declared Content-Type header (`none` when
the response carries no such header; `content_type().unwrap_or_default()`
then yields `""`) and the body bytes. -/
structure Response where
  contentType : Option String
  bytes : List ℕ
deriving DecidableEq, Repr

/-- The abstract SVG rasterizer
`egui_extras::image::load_svg_bytes_with_size` (body bytes and size hint to a
`ColorImage` or an error message). -/
def SvgLoader : Type := List ℕ → ℕ → Except String ColorImage

/-- The abstract raster decoder `image::load_from_memory`. -/
def MemLoader : Type := List ℕ → Except String DynImage

/-- `parse_img_response(response, size)` (`src/images.rs:89-113`). -/
def parse_img_response (sqrt : ℚ → ℚ) (resample : Resampler) (loadSvg : SvgLoader)
    (loadMem : MemLoader) (response : Response) (size : ℕ) :
    Except ImgError ColorImage :=
  let content_type := response.contentType.getD ""
  if strStartsWith content_type "image/svg" then
    match loadSvg response.bytes size with
    | .error e => .error (.Vector e)
    | .ok color_image => .ok (round_image sqrt color_image)
  else if strStartsWith content_type "image/" then
    match loadMem response.bytes with
    | .error e => .error (.Raster e)
    | .ok dyn_image => .ok (process_pfp_bitmap sqrt resample size dyn_image)
  else
    .error (.UnsupportedContentType content_type)

/-- The branch taken by `parse_img_response`. -/
inductive Dispatch
  | vector
  | raster
  | unsupported (contentType : String)
deriving DecidableEq, Repr

/-- The `if`/`else if`/`else` chain of `parse_img_response`
(`src/images.rs:95-111`), projected onto which branch runs. -/
def imgDispatch (response : Response) : Dispatch :=
  let content_type := response.contentType.getD ""
  if strStartsWith content_type "image/svg" then .vector
  else if strStartsWith content_type "image/" then .raster
  else .unsupported content_type

/-- A concrete 1×1 8-bit image. -/
def dyn1 : DynImage := ⟨1, 1, fun _ _ => ⟨9, 9, 9, 9⟩, true⟩

/-- Modelled from the spec: `ImageCache` (`imgcache.rs` is not under `src/`).
Per §4.1-§4.2 it owns the cache directory; `ImageCache::key` derives a
deterministic filesystem-safe key from the identifier alone and
`ImageCache::write(cache_dir, url, bitmap)` persists the bitmap at
`cache_dir/key(url)`.  The key function and the write outcome are carried by
`Env` below. -/
structure ImageCache where
  cache_dir : String

/-- `Path::join` on our string-modelled paths. -/
def pathJoin (dir file : String) : String := dir ++ "/" ++ file

/-- The ambient library functions and effects a fetch interacts with:
`sqrt`/`resample` as before, the two decoders, `ImageCache::key` and
`ImageCache::write` (modelled from the spec, see `ImageCache`),
`tokio::fs::read`, and `Path::exists` as a snapshot of the filesystem. -/
structure Env where
  sqrt : ℚ → ℚ
  resample : Resampler
  loadSvg : SvgLoader
  loadMem : MemLoader
  key : String → String
  readFile : String → Except String (List ℕ)
  diskWrite : String → String → ColorImage → Except String Unit
  fsExists : String → Bool

/-- `egui::Context::load_texture(name, image, options)`: registers the bitmap
with the UI context and returns a handle; modelled as the pairing of the name
and the registered bitmap. -/
structure TextureHandle where
  name : String
  image : ColorImage
deriving DecidableEq, Repr

def load_texture (url : String) (image : ColorImage) : TextureHandle := ⟨url, image⟩

/-- `DynamicImage::as_flat_samples_u8()`: `Some` (the flat sample view,
carried here as the image itself) exactly when the buffer is 8-bit based;
`None` for the 16-bit and float variants. -/
def DynImage.as_flat_samples_u8 (img : DynImage) : Option DynImage :=
  if img.u8Based then some img else none

/-- The outcome of the async task of `fetch_img_from_disk`: a resolved value
or a Rust panic (from `Option::unwrap` on `None`). -/
inductive DiskResult
  | ok (handle : TextureHandle)
  | err (e : ImgError)
  | panicked (msg : String)
deriving DecidableEq, Repr

/-- `fetch_img_from_disk(ctx, url, path)` (`src/images.rs:115-135`): the body
of the spawned async task.  The `?` on `fs::read` surfaces an I/O error, the
`?` on `load_from_memory` a raster decode error, and
`as_flat_samples_u8().unwrap()` (marked `TODO: remove unwrap here` in the
source) panics when the decoded image is not 8-bit based. -/
def fetch_img_from_disk (env : Env) (url path : String) : DiskResult :=
  match env.readFile path with
  | .error e => .err (.Io e)
  | .ok data =>
    match env.loadMem data with
    | .error e => .err (.Raster e)
    | .ok image_buffer =>
      match image_buffer.as_flat_samples_u8 with
      | none => .panicked "called Option::unwrap() on a None value"
      | some flat_samples =>
        .ok (load_texture url
          (ColorImage.from_rgba_unmultiplied image_buffer.width image_buffer.height
            flat_samples))

/-- The observable events of the network completion callback, in program
order: texture registration, spawning the background disk write (recording
the outcome that write will eventually produce), resolving the promise, and
the repaint request. -/
inductive NetEvent
  | registered (handle : TextureHandle)
  | spawnedDiskWrite (outcome : Except String Unit)
  | resolvedEv (result : Except ImgError TextureHandle)
  | repaintRequested
deriving Repr

/-- What `fetch_img_from_net` sets up: exactly one `ehttp::fetch` request is
issued, and the completion closure (`src/images.rs:161-178`) is modelled as
the trace of events it performs for a given transport response (`Except.error`
models a network-level failure handed to the callback). -/
structure NetFetch where
  requestsIssued : ℕ
  callback : Except String Response → List NetEvent

/-- `fetch_img_from_net(cache_path, ctx, url, size)` (`src/images.rs:155-181`). -/
def fetch_img_from_net (env : Env) (cache_path url : String) (size : ℕ) : NetFetch :=
  { requestsIssued := 1
    callback := fun response =>
      match response with
      | .error e => [.resolvedEv (.error (.Generic e)), .repaintRequested]
      | .ok resp =>
        match parse_img_response env.sqrt env.resample env.loadSvg env.loadMem
            resp size with
        | .error e => [.resolvedEv (.error e), .repaintRequested]
        | .ok img =>
          let texture_handle := load_texture url img
          [.registered texture_handle,
           .spawnedDiskWrite (env.diskWrite cache_path url img),
           .resolvedEv (.ok texture_handle),
           .repaintRequested] }

/-- The promise returned by `fetch_img`: either the disk task or the network
fetch. -/
inductive FetchResult
  | disk (outcome : DiskResult)
  | net (nf : NetFetch)

/-- Network requests issued by a fetch: none on the disk path. -/
def FetchResult.netRequests : FetchResult → ℕ
  | .disk _ => 0
  | .net nf => nf.requestsIssued

def FetchResult.isDisk : FetchResult → Bool
  | .disk _ => true
  | .net _ => false

/-- `fetch_img(img_cache, ctx, url, size)` (`src/images.rs:137-153`): derive
the key, probe the filesystem synchronously, and take the disk path iff the
cache file exists. -/
def fetch_img (env : Env) (img_cache : ImageCache) (url : String) (size : ℕ) :
    FetchResult :=
  let key := env.key url
  let path := pathJoin img_cache.cache_dir key
  if env.fsExists path then
    .disk (fetch_img_from_disk env url path)
  else
    .net (fetch_img_from_net env img_cache.cache_dir url size)

/-- The filesystem after the background `ImageCache::write` for `url` has
completed: the file at `cache_dir/key url` now exists (Modelled from the
spec: write stores under the derived key, §4.2 and scenario 1). -/
def Env.afterWrite (env : Env) (cache_dir url : String) : Env :=
  { env with
    fsExists := fun p =>
      if p = pathJoin cache_dir (env.key url) then true else env.fsExists p }

/-- The value a trace resolves the promise with, if any. -/
def resolvedOf (events : List NetEvent) : Option (Except ImgError TextureHandle) :=
  events.findSome? fun e =>
    match e with
    | .resolvedEv r => some r
    | _ => none

/-- An environment of concrete effect instances used by witnesses. -/
def envT : Env :=
  { sqrt := ratSqrt
    resample := resampleT
    loadSvg := fun _ _ => .error "svg"
    loadMem := fun _ => .ok dyn1
    key := fun url => url
    readFile := fun _ => .error "missing"
    diskWrite := fun _ _ _ => .ok ()
    fsExists := fun _ => false }

/-- Modelled decode of a cached 16-bit-per-channel PNG:
`image::load_from_memory` succeeds but the resulting `DynamicImage` is not
8-bit based, so `as_flat_samples_u8()` is `None`. -/
def dyn16 : DynImage := ⟨1, 1, fun _ _ => ⟨0, 0, 0, 0⟩, false⟩

def env16 : Env :=
  { envT with readFile := fun _ => .ok [1], loadMem := fun _ => .ok dyn16 }

/-- An environment whose cache file exists and decodes. -/
def envDisk : Env :=
  { envT with
    fsExists := fun _ => true
    readFile := fun _ => .ok [2]
    loadMem := fun _ => .ok dyn1 }

/-! ## Theorems -/

lemma roundPixel_eq_spec (sqrt : ℚ → ℚ) (S i : ℕ) (p : Color32) :
    roundPixel sqrt S i p = roundPixelSpec sqrt S i p := by
  unfold roundPixel roundPixelSpec
  simp only [gt_iff_lt]
  by_cases h : ((S : ℚ) / 2 - ((i % S : ℕ) : ℚ)) * ((S : ℚ) / 2 - ((i % S : ℕ) : ℚ)) +
      ((S : ℚ) / 2 - ((i / S : ℕ) : ℚ)) * ((S : ℚ) / 2 - ((i / S : ℕ) : ℚ)) ≤
      (S : ℚ) / 2 * ((S : ℚ) / 2)
  · rw [if_pos h, if_neg (not_lt.mpr h)]
  · rw [if_neg h, if_pos (lt_of_not_le h)]
    rfl

/-- C1: `round_image` performs, pixel by pixel, exactly the transform the
specification describes: transparent outside the circle, channel scaling by
`distance_to_edge` (truncated) within one pixel of the edge, untouched
strictly inside. -/
theorem round_image_matches_spec (sqrt : ℚ → ℚ) (image : ColorImage) :
    round_image sqrt image = roundImageSpec sqrt image := by
  unfold round_image roundImageSpec
  have h : roundPixel sqrt image.size0 = roundPixelSpec sqrt image.size0 := by
    funext i p; exact roundPixel_eq_spec sqrt image.size0 i p
  rw [h]

lemma roundPixel_transparent (sqrt : ℚ → ℚ) (S i : ℕ) (p : Color32)
    (h : (S : ℚ) / 2 * ((S : ℚ) / 2) <
        ((S : ℚ) / 2 - ((i % S : ℕ) : ℚ)) * ((S : ℚ) / 2 - ((i % S : ℕ) : ℚ)) +
        ((S : ℚ) / 2 - ((i / S : ℕ) : ℚ)) * ((S : ℚ) / 2 - ((i / S : ℕ) : ℚ))) :
    roundPixel sqrt S i p = Color32.TRANSPARENT := by
  unfold roundPixel
  rw [if_neg (not_le.mpr h)]

lemma truncU8_id (c : ℕ) (hc : c ≤ 255) : truncU8 ((c : ℚ) * 1) = c := by
  unfold truncU8
  rw [mul_one, Int.floor_natCast, min_eq_left (by exact_mod_cast hc)]
  simp

lemma ratSqrt_zero : ratSqrt 0 = 0 := by simp [ratSqrt]

/-- The pixel at the exact center of a side-`2k` bitmap is left unchanged by
the mask (for `k = 1` it falls in the fade band but is scaled by exactly
`1.0`, which is the identity after truncation). -/
lemma roundPixel_center (sqrt : ℚ → ℚ) (h0 : sqrt 0 = 0) (k : ℕ) (hk : 1 ≤ k)
    (p : Color32) (hv : p.Valid) :
    roundPixel sqrt (2 * k) (k * (2 * k) + k) p = p := by
  have hmod : (k * (2 * k) + k) % (2 * k) = k := by
    rw [mul_comm k (2 * k), Nat.mul_add_mod]
    exact Nat.mod_eq_of_lt (by omega)
  have hdiv : (k * (2 * k) + k) / (2 * k) = k := by
    rw [mul_comm k (2 * k), Nat.mul_add_div (by omega)]
    rw [Nat.div_eq_of_lt (by omega)]
    omega
  have he : (((2 * k : ℕ) : ℚ)) / 2 = (k : ℚ) := by push_cast; ring
  simp only [roundPixel, hmod, hdiv, he, sub_self, zero_mul, add_zero]
  rw [if_pos (by positivity)]
  rw [h0, sub_zero]
  rcases Nat.lt_or_ge k 2 with hk1 | hk2
  · have hk1 : k = 1 := by omega
    subst hk1
    rw [if_pos (by norm_num)]
    obtain ⟨h1, h2, h3, h4⟩ := hv
    cases p with
    | mk r g b a =>
      simp only [Nat.cast_one]
      congr 1 <;> [exact truncU8_id r h1; exact truncU8_id g h2;
        exact truncU8_id b h3; exact truncU8_id a h4]
  · rw [if_neg (by exact_mod_cast (by omega : ¬ k ≤ 1))]

/-- C2.counterexample: for the side-2 all-opaque bitmap, the corner pixel at
index 3 (coordinates `(1,1)`) lies inside the circle (its distance squared to
the center `(1,1)` is `0 ≤ r² = 1`), is scaled by exactly `1.0`, and stays
fully opaque — it is not made transparent, refuting the corner clause for
`S = 2`. -/
theorem round_image_corner_not_transparent :
    (round_image ratSqrt
        ⟨2, 2, [⟨255, 255, 255, 255⟩, ⟨255, 255, 255, 255⟩,
                ⟨255, 255, 255, 255⟩, ⟨255, 255, 255, 255⟩]⟩).pixels.getD 3
        Color32.TRANSPARENT = ⟨255, 255, 255, 255⟩ ∧
    (⟨255, 255, 255, 255⟩ : Color32) ≠ Color32.TRANSPARENT := by
  constructor
  · have h3 : roundPixel ratSqrt 2 3 ⟨255, 255, 255, 255⟩ = ⟨255, 255, 255, 255⟩ := by
      have := roundPixel_center ratSqrt ratSqrt_zero 1 le_rfl
        ⟨255, 255, 255, 255⟩ (by decide)
      simpa using this
    simp [round_image, List.mapIdx, List.mapIdx.go, h3]
  · decide

/-- C2.amended: for every square side-`S` bitmap, `round_image` keeps the size
fields and the pixel count unchanged; the pixel exactly at the center (which
exists when `S` is even and `S ≥ 2`) is unmodified; and when `S ≥ 7` the four
corner pixels are fully transparent (for `2 ≤ S ≤ 6` the corner farthest from
the origin lies inside the circle or its one-pixel fade band and is not
cleared, as the counterexample at `S = 2` shows). -/
theorem round_image_geometry (sqrt : ℚ → ℚ) (h0 : sqrt 0 = 0)
    (image : ColorImage) (S : ℕ) (hS : image.size0 = S)
    (hlen : image.pixels.length = S * S) :
    (round_image sqrt image).size0 = image.size0 ∧
    (round_image sqrt image).size1 = image.size1 ∧
    (round_image sqrt image).pixels.length = image.pixels.length ∧
    (2 ≤ S → S % 2 = 0 → ∀ p : Color32, p.Valid →
      image.pixels[S / 2 * S + S / 2]? = some p →
      (round_image sqrt image).pixels[S / 2 * S + S / 2]? = some p) ∧
    (7 ≤ S →
      (round_image sqrt image).pixels[(0 : ℕ)]? = some Color32.TRANSPARENT ∧
      (round_image sqrt image).pixels[S - 1]? = some Color32.TRANSPARENT ∧
      (round_image sqrt image).pixels[(S - 1) * S]? = some Color32.TRANSPARENT ∧
      (round_image sqrt image).pixels[S * S - 1]? = some Color32.TRANSPARENT) := by
  have key : ∀ c (hc : c < image.pixels.length),
      (round_image sqrt image).pixels[c]? =
        some (roundPixel sqrt S c image.pixels[c]) := by
    intro c hc
    simp [round_image, List.getElem?_mapIdx, List.getElem?_eq_getElem hc, hS]
  refine ⟨rfl, rfl, by simp [round_image], ?_, ?_⟩
  · intro h2 hev p hv hp
    obtain ⟨k, hk⟩ : ∃ k, S = 2 * k := ⟨S / 2, by omega⟩
    have hk1 : 1 ≤ k := by omega
    have h2k : S / 2 = k := by omega
    have hidx : S / 2 * S + S / 2 = k * (2 * k) + k := by rw [h2k, hk]
    have hc : S / 2 * S + S / 2 < image.pixels.length := by
      rw [hlen, hidx, hk]; nlinarith
    rw [key _ hc]
    have hgp : image.pixels[S / 2 * S + S / 2] = p := by
      have h1 := List.getElem?_eq_getElem hc
      rw [hp] at h1
      exact (Option.some_inj.mp h1).symm
    rw [hgp]
    have hcen : roundPixel sqrt S (S / 2 * S + S / 2) p = p := by
      rw [hidx, hk]
      exact roundPixel_center sqrt h0 k hk1 p hv
    rw [hcen]
  · intro h7
    have hSQ : (7 : ℚ) ≤ (S : ℚ) := by exact_mod_cast h7
    have hS1 : 1 ≤ S := by omega
    have hSS : S ≤ S * S := Nat.le_mul_of_pos_left S (by omega)
    have hc0 : 0 < image.pixels.length := by rw [hlen]; omega
    have hc1 : S - 1 < image.pixels.length := by rw [hlen]; omega
    have hc2 : (S - 1) * S < image.pixels.length := by
      rw [hlen]; exact (mul_lt_mul_right (show 0 < S by omega)).mpr (by omega)
    have hc3 : S * S - 1 < image.pixels.length := by rw [hlen]; omega
    have hcast1 : (((S - 1 : ℕ)) : ℚ) = (S : ℚ) - 1 := by
      push_cast [Nat.cast_sub hS1]; ring
    refine ⟨?_, ?_, ?_, ?_⟩
    · rw [key 0 hc0]
      refine congrArg some (roundPixel_transparent sqrt S 0 _ ?_)
      rw [Nat.zero_mod, Nat.zero_div]
      nlinarith
    · rw [key (S - 1) hc1]
      refine congrArg some (roundPixel_transparent sqrt S (S - 1) _ ?_)
      rw [Nat.mod_eq_of_lt (by omega), Nat.div_eq_of_lt (by omega), hcast1]
      push_cast
      nlinarith [sq_nonneg ((S : ℚ) - 2)]
    · rw [key ((S - 1) * S) hc2]
      refine congrArg some (roundPixel_transparent sqrt S ((S - 1) * S) _ ?_)
      rw [Nat.mul_mod_left, Nat.mul_div_cancel _ (by omega), hcast1]
      push_cast
      nlinarith [sq_nonneg ((S : ℚ) - 2)]
    · rw [key (S * S - 1) hc3]
      refine congrArg some (roundPixel_transparent sqrt S (S * S - 1) _ ?_)
      have hsplit : S * S - 1 = S * (S - 1) + (S - 1) := by
        zify [show 1 ≤ S * S by omega, hS1]
        ring
      rw [hsplit, Nat.mul_add_mod, Nat.mod_eq_of_lt (by omega)]
      rw [Nat.mul_add_div (by omega), Nat.div_eq_of_lt (by omega), Nat.add_zero, hcast1]
      nlinarith [sq_nonneg ((S : ℚ) - 7 / 2)]

lemma pfpCrop_dims (img : DynImage) :
    (pfpCrop img).width = min img.width img.height ∧
    (pfpCrop img).height = min img.width img.height := by
  simp only [pfpCrop, DynImage.crop_imm]
  split_ifs <;> constructor <;> simp <;> omega

lemma resizeDimensions_square (m size : ℕ) (hm : 1 ≤ m) (hs : 1 ≤ size)
    (hs32 : size ≤ u32Max) :
    resizeDimensions m m size size false = (size, size) := by
  have hm0 : ((m : ℚ)) ≠ 0 := Nat.cast_ne_zero.mpr (by omega)
  have hv : (m : ℚ) * ((size : ℚ) / (m : ℚ)) = (size : ℚ) := by
    field_simp
  simp only [resizeDimensions, Bool.false_eq_true, if_false, min_self, hv,
    round_natCast, Int.toNat_natCast]
  rw [max_eq_left hs]
  rw [if_neg (by omega), if_neg (by omega)]

/-- Witness for `round_image_geometry` at the concrete side-8 image. -/
theorem round_image_geometry_witness :
    (round_image ratSqrt img8).size0 = img8.size0 ∧
    (round_image ratSqrt img8).size1 = img8.size1 ∧
    (round_image ratSqrt img8).pixels.length = img8.pixels.length ∧
    (2 ≤ 8 → 8 % 2 = 0 → ∀ p : Color32, p.Valid →
      img8.pixels[8 / 2 * 8 + 8 / 2]? = some p →
      (round_image ratSqrt img8).pixels[8 / 2 * 8 + 8 / 2]? = some p) ∧
    (7 ≤ 8 →
      (round_image ratSqrt img8).pixels[(0 : ℕ)]? = some Color32.TRANSPARENT ∧
      (round_image ratSqrt img8).pixels[8 - 1]? = some Color32.TRANSPARENT ∧
      (round_image ratSqrt img8).pixels[(8 - 1) * 8]? = some Color32.TRANSPARENT ∧
      (round_image ratSqrt img8).pixels[8 * 8 - 1]? = some Color32.TRANSPARENT) :=
  round_image_geometry ratSqrt ratSqrt_zero img8 8 rfl (by simp [img8])

lemma pfpCrop_pix_wide (img : DynImage) (h : img.height < img.width) :
    ∀ i j, (pfpCrop img).pix i j = img.pix ((img.width - img.height) / 2 + i) j := by
  intro i j
  simp only [pfpCrop, DynImage.crop_imm]
  rw [if_pos (by omega : img.width > min img.width img.height)]
  simp [min_eq_right (Nat.le_of_lt h)]

lemma pfpCrop_pix_tall (img : DynImage) (h : img.width < img.height) :
    ∀ i j, (pfpCrop img).pix i j = img.pix i ((img.height - img.width) / 2 + j) := by
  intro i j
  simp only [pfpCrop, DynImage.crop_imm]
  rw [if_neg (by omega : ¬ img.width > min img.width img.height),
    if_pos (by omega : img.height > min img.width img.height)]
  simp [min_eq_left (Nat.le_of_lt h)]

/-- C3.counterexample: with `target_size = 0` the aspect-preserving resize of
the `image` crate clamps each output dimension to at least 1, so the bitmap
handed to the mask is 1×1, not 0×0. -/
theorem process_pfp_bitmap_zero_size :
    (process_pfp_bitmap ratSqrt resampleT 0 dyn2).size0 = 1 ∧ (1 : ℕ) ≠ 0 := by
  constructor
  · norm_num [process_pfp_bitmap, pfpCrop, dyn2, DynImage.resize, DynImage.into_rgba8,
      ColorImage.from_rgba_unmultiplied, round_image, resizeDimensions, u32Max]
  · decide

/-- C3.amended: for every decoded raster image (dimensions ≥ 1, as every
decoded image has) and every `target_size` with `1 ≤ target_size ≤ u32::MAX`,
`process_pfp_bitmap` center-crops to a square of side `min W H` — removing
`(W-H)/2` pixels from the left when `W > H`, `(H-W)/2` from the top when
`H > W` (integer division) — then resizes the square with the Catmull-Rom
filter (cubic family, not nearest-neighbour) so that the bitmap handed to
`round_image`, and hence the result, is exactly `target_size × target_size`
(for `target_size = 0` the resize clamps to 1×1 instead). -/
theorem process_pfp_bitmap_pipeline (sqrt : ℚ → ℚ) (resample : Resampler)
    (size : ℕ) (img : DynImage) (hW : 1 ≤ img.width) (hH : 1 ≤ img.height)
    (hs : 1 ≤ size) (hs32 : size ≤ u32Max) :
    ((pfpCrop img).width = min img.width img.height ∧
      (pfpCrop img).height = min img.width img.height) ∧
    (img.height < img.width →
      ∀ i j, (pfpCrop img).pix i j = img.pix ((img.width - img.height) / 2 + i) j) ∧
    (img.width < img.height →
      ∀ i j, (pfpCrop img).pix i j = img.pix i ((img.height - img.width) / 2 + j)) ∧
    (pfpFilter = FilterType.CatmullRom ∧ pfpFilter.cubicFamily = true ∧
      pfpFilter ≠ FilterType.Nearest) ∧
    (((pfpCrop img).resize resample size size pfpFilter).width = size ∧
      ((pfpCrop img).resize resample size size pfpFilter).height = size) ∧
    process_pfp_bitmap sqrt resample size img =
      round_image sqrt
        (ColorImage.from_rgba_unmultiplied size size
          (((pfpCrop img).resize resample size size pfpFilter).into_rgba8)) ∧
    (process_pfp_bitmap sqrt resample size img).size0 = size ∧
    (process_pfp_bitmap sqrt resample size img).size1 = size := by
  obtain ⟨hcw, hch⟩ := pfpCrop_dims img
  have hm1 : 1 ≤ min img.width img.height := le_min hW hH
  have hrd : resizeDimensions (pfpCrop img).width (pfpCrop img).height size size false
      = (size, size) := by
    rw [hcw, hch]
    exact resizeDimensions_square _ size hm1 hs hs32
  have hrw : ((pfpCrop img).resize resample size size pfpFilter).width = size := by
    simp [DynImage.resize, hrd]
  have hrh : ((pfpCrop img).resize resample size size pfpFilter).height = size := by
    simp [DynImage.resize, hrd]
  refine ⟨⟨hcw, hch⟩, pfpCrop_pix_wide img, pfpCrop_pix_tall img,
    ⟨rfl, rfl, by decide⟩, ⟨hrw, hrh⟩, ?_, ?_, ?_⟩
  · simp only [process_pfp_bitmap, DynImage.into_rgba8, hrw, hrh]
  · simp [process_pfp_bitmap, round_image, ColorImage.from_rgba_unmultiplied,
      DynImage.into_rgba8, hrw]
  · simp [process_pfp_bitmap, round_image, ColorImage.from_rgba_unmultiplied,
      DynImage.into_rgba8, hrh]

theorem process_pfp_bitmap_pipeline_witness :
    (pfpCrop dyn128x96).width = min dyn128x96.width dyn128x96.height ∧
    (process_pfp_bitmap ratSqrt resampleT 64 dyn128x96).size0 = 64 ∧
    (process_pfp_bitmap ratSqrt resampleT 64 dyn128x96).size1 = 64 ∧
    (∀ i j, (pfpCrop dyn128x96).pix i j =
      dyn128x96.pix ((dyn128x96.width - dyn128x96.height) / 2 + i) j) := by
  have h := process_pfp_bitmap_pipeline ratSqrt resampleT 64 dyn128x96
    (by norm_num [dyn128x96]) (by norm_num [dyn128x96]) (by norm_num)
    (by norm_num [u32Max])
  exact ⟨h.1.1, h.2.2.2.2.2.2.1, h.2.2.2.2.2.2.2,
    h.2.1 (by norm_num [dyn128x96])⟩

/-- C4: the vector path runs iff the declared content type begins with
`image/svg`; the raster path runs iff it otherwise begins with `image/`; any
other content type yields `UnsupportedContentType` carrying the declared
content type, and the result is fully determined by the dispatch — no
fallback between paths. -/
theorem parse_img_response_dispatch (sqrt : ℚ → ℚ) (resample : Resampler)
    (loadSvg : SvgLoader) (loadMem : MemLoader) (response : Response) (size : ℕ) :
    (imgDispatch response = .vector ↔
      strStartsWith (response.contentType.getD "") "image/svg" = true) ∧
    (imgDispatch response = .raster ↔
      (strStartsWith (response.contentType.getD "") "image/svg" = false ∧
       strStartsWith (response.contentType.getD "") "image/" = true)) ∧
    (imgDispatch response = .unsupported (response.contentType.getD "") ↔
      (strStartsWith (response.contentType.getD "") "image/svg" = false ∧
       strStartsWith (response.contentType.getD "") "image/" = false)) ∧
    parse_img_response sqrt resample loadSvg loadMem response size =
      (match imgDispatch response with
       | .vector =>
         match loadSvg response.bytes size with
         | .error e => .error (ImgError.Vector e)
         | .ok color_image => .ok (round_image sqrt color_image)
       | .raster =>
         match loadMem response.bytes with
         | .error e => .error (ImgError.Raster e)
         | .ok dyn_image => .ok (process_pfp_bitmap sqrt resample size dyn_image)
       | .unsupported ct => .error (ImgError.UnsupportedContentType ct)) := by
  unfold imgDispatch parse_img_response
  by_cases h1 : strStartsWith (response.contentType.getD "") "image/svg" = true
  · simp [h1]
  · have h1f : strStartsWith (response.contentType.getD "") "image/svg" = false := by
      simpa using h1
    by_cases h2 : strStartsWith (response.contentType.getD "") "image/" = true
    · simp [h1f, h2]
    · have h2f : strStartsWith (response.contentType.getD "") "image/" = false := by
        simpa using h2
      simp [h1f, h2f]

/-- C10: a response with no Content-Type header is dispatched on the empty
string and is rejected as unsupported, even when the raster decoder could
parse the body bytes. -/
theorem parse_img_response_missing_content_type (sqrt : ℚ → ℚ)
    (resample : Resampler) (loadSvg : SvgLoader) (loadMem : MemLoader)
    (bytes : List ℕ) (size : ℕ) (_hdecodable : ∃ di, loadMem bytes = Except.ok di) :
    parse_img_response sqrt resample loadSvg loadMem ⟨none, bytes⟩ size =
      .error (.UnsupportedContentType "") := by
  simp only [parse_img_response, Option.getD_none]
  rw [if_neg (by decide), if_neg (by decide)]

/-- Witness for `parse_img_response_missing_content_type`: the decoder
accepts the bytes (a PNG magic prefix), yet the missing header still yields
the unsupported-content-type error. -/
theorem parse_img_response_missing_content_type_witness :
    parse_img_response ratSqrt resampleT (fun _ _ => .error "svg")
      (fun _ => .ok dyn1) ⟨none, [137, 80, 78, 71]⟩ 64 =
      .error (.UnsupportedContentType "") :=
  parse_img_response_missing_content_type ratSqrt resampleT _ _ _ 64 ⟨dyn1, rfl⟩

/-- C5: the cache key is derived from the url alone, the branch is decided by
the existence of `cache_dir/key(url)` (disk path iff the file exists), the
fetch path does not depend on the requested size, and once the cache file for
the url exists (e.g. after a completed fetch wrote it) a fetch takes the disk
path and issues no network request. -/
theorem fetch_img_cache_selection (env : Env) (img_cache : ImageCache)
    (url : String) (size : ℕ) :
    (fetch_img env img_cache url size =
      if env.fsExists (pathJoin img_cache.cache_dir (env.key url)) then
        .disk (fetch_img_from_disk env url (pathJoin img_cache.cache_dir (env.key url)))
      else
        .net (fetch_img_from_net env img_cache.cache_dir url size)) ∧
    ((fetch_img env img_cache url size).isDisk = true ↔
      env.fsExists (pathJoin img_cache.cache_dir (env.key url)) = true) ∧
    (∀ s1 s2 : ℕ,
      (fetch_img env img_cache url s1).isDisk =
        (fetch_img env img_cache url s2).isDisk) ∧
    (fetch_img (env.afterWrite img_cache.cache_dir url) img_cache url size).isDisk
        = true ∧
    (fetch_img (env.afterWrite img_cache.cache_dir url) img_cache url size).netRequests
        = 0 := by
  refine ⟨rfl, ?_, ?_, ?_, ?_⟩
  · simp only [fetch_img]
    by_cases h : env.fsExists (pathJoin img_cache.cache_dir (env.key url)) = true
    · simp [h, FetchResult.isDisk]
    · simp only [Bool.not_eq_true] at h
      simp [h, FetchResult.isDisk]
  · intro s1 s2
    simp only [fetch_img]
    by_cases h : env.fsExists (pathJoin img_cache.cache_dir (env.key url)) = true
    · simp [h]
    · simp only [Bool.not_eq_true] at h
      simp [h, FetchResult.isDisk]
  · simp [fetch_img, Env.afterWrite, FetchResult.isDisk]
  · simp [fetch_img, Env.afterWrite, FetchResult.netRequests]

/-- C6: on the network path exactly one request is issued, a transport
failure resolves the promise with the wrapped network error, a decode failure
(including an unsupported content type) resolves it with that error, and on
every run that resolves with an error no disk-write task is spawned. -/
theorem fetch_img_from_net_error_paths (env : Env) (cache_path url : String)
    (size : ℕ) :
    (fetch_img_from_net env cache_path url size).requestsIssued = 1 ∧
    (∀ e, (fetch_img_from_net env cache_path url size).callback (.error e) =
      [.resolvedEv (.error (.Generic e)), .repaintRequested]) ∧
    (∀ resp e,
      parse_img_response env.sqrt env.resample env.loadSvg env.loadMem resp size
        = .error e →
      (fetch_img_from_net env cache_path url size).callback (.ok resp) =
        [.resolvedEv (.error e), .repaintRequested]) ∧
    (∀ response e,
      NetEvent.resolvedEv (.error e) ∈
        (fetch_img_from_net env cache_path url size).callback response →
      ∀ o, NetEvent.spawnedDiskWrite o ∉
        (fetch_img_from_net env cache_path url size).callback response) := by
  refine ⟨rfl, fun e => rfl, ?_, ?_⟩
  · intro resp e hparse
    simp [fetch_img_from_net, hparse]
  · intro response e hmem o
    cases response with
    | error e2 => simp [fetch_img_from_net]
    | ok resp =>
      simp only [fetch_img_from_net] at hmem ⊢
      cases hp : parse_img_response env.sqrt env.resample env.loadSvg env.loadMem
          resp size with
      | error e2 => simp [hp]
      | ok img =>
        rw [hp] at hmem
        simp at hmem

/-- Witness for `fetch_img_from_net_error_paths`: scenario 3 (a `text/html`
response resolves with the unsupported-content-type error) and scenario 4
(a connection error resolves with the wrapped network error). -/
theorem fetch_img_from_net_error_paths_witness :
    (fetch_img_from_net envT "/cache" "https://example.com/a.png" 64).callback
        (.ok ⟨some "text/html", []⟩) =
      [.resolvedEv (.error (.UnsupportedContentType "text/html")),
       .repaintRequested] ∧
    (fetch_img_from_net envT "/cache" "https://example.com/a.png" 64).callback
        (.error "connection refused") =
      [.resolvedEv (.error (.Generic "connection refused")), .repaintRequested] := by
  have h := fetch_img_from_net_error_paths envT "/cache" "https://example.com/a.png" 64
  refine ⟨h.2.2.1 ⟨some "text/html", []⟩ (.UnsupportedContentType "text/html") ?_,
    h.2.1 "connection refused"⟩
  simp only [envT, parse_img_response, Option.getD_some]
  rw [if_neg (by decide), if_neg (by decide)]

/-- C7: on a successful network fetch the callback's trace is exactly
registration, then the disk-write spawn, then resolution with the handle,
then the repaint request — the registration strictly precedes the spawn —
and the resolved value does not depend on the disk write's outcome. -/
theorem fetch_img_from_net_success_order (env : Env) (cache_path url : String)
    (size : ℕ) (resp : Response) (img : ColorImage)
    (hok : parse_img_response env.sqrt env.resample env.loadSvg env.loadMem resp size
      = .ok img) :
    (fetch_img_from_net env cache_path url size).callback (.ok resp) =
      [.registered (load_texture url img),
       .spawnedDiskWrite (env.diskWrite cache_path url img),
       .resolvedEv (.ok (load_texture url img)),
       .repaintRequested] ∧
    (∃ i j : ℕ, i < j ∧
      ((fetch_img_from_net env cache_path url size).callback (.ok resp))[i]? =
        some (.registered (load_texture url img)) ∧
      ((fetch_img_from_net env cache_path url size).callback (.ok resp))[j]? =
        some (.spawnedDiskWrite (env.diskWrite cache_path url img))) ∧
    (∀ dw1 dw2 : String → String → ColorImage → Except String Unit,
      resolvedOf ((fetch_img_from_net { env with diskWrite := dw1 }
          cache_path url size).callback (.ok resp)) =
      resolvedOf ((fetch_img_from_net { env with diskWrite := dw2 }
          cache_path url size).callback (.ok resp))) := by
  have htrace : ∀ dw : String → String → ColorImage → Except String Unit,
      (fetch_img_from_net { env with diskWrite := dw } cache_path url size).callback
        (.ok resp) =
      [.registered (load_texture url img),
       .spawnedDiskWrite (dw cache_path url img),
       .resolvedEv (.ok (load_texture url img)),
       .repaintRequested] := by
    intro dw
    simp [fetch_img_from_net, hok]
  have h1 := htrace env.diskWrite
  refine ⟨h1, ⟨0, 1, by omega, by rw [h1]; rfl, by rw [h1]; rfl⟩, ?_⟩
  intro dw1 dw2
  rw [htrace dw1, htrace dw2]
  simp [resolvedOf]

/-- Witness for `fetch_img_from_net_success_order` with a concrete `image/png`
response. -/
theorem fetch_img_from_net_success_order_witness :
    (fetch_img_from_net envT "/cache" "https://example.com/a.png" 64).callback
        (.ok ⟨some "image/png", [137, 80, 78, 71]⟩) =
      [.registered (load_texture "https://example.com/a.png"
          (process_pfp_bitmap ratSqrt resampleT 64 dyn1)),
       .spawnedDiskWrite (.ok ()),
       .resolvedEv (.ok (load_texture "https://example.com/a.png"
          (process_pfp_bitmap ratSqrt resampleT 64 dyn1))),
       .repaintRequested] := by
  have h := fetch_img_from_net_success_order envT "/cache"
    "https://example.com/a.png" 64 ⟨some "image/png", [137, 80, 78, 71]⟩
    (process_pfp_bitmap ratSqrt resampleT 64 dyn1) ?_
  · exact h.1
  · simp only [envT, parse_img_response, Option.getD_some]
    rw [if_neg (by decide), if_pos (by decide)]

/-- C8: the failing input.  A cache file whose bytes decode to a non-8-bit
image (e.g. a 16-bit-per-channel PNG) drives the disk task into the
`unwrap()` at `src/images.rs:124`, a panic rather than an error resolution. -/
theorem fetch_img_from_disk_panics :
    fetch_img_from_disk env16 "https://example.com/a.png" "/cache/k" =
      .panicked "called Option::unwrap() on a None value" := rfl

/-- C9: on the disk-hit path the requested size is never consulted — the two
fetches resolve identically — and the registered bitmap is the decoded file
content as-is (the raw `from_rgba_unmultiplied` of the decoded buffer, with
no crop, resize or circular-mask pass). -/
theorem fetch_img_disk_ignores_size (env : Env) (img_cache : ImageCache)
    (url : String) (s1 s2 : ℕ)
    (hexists : env.fsExists (pathJoin img_cache.cache_dir (env.key url)) = true) :
    fetch_img env img_cache url s1 = fetch_img env img_cache url s2 ∧
    (∀ data img,
      env.readFile (pathJoin img_cache.cache_dir (env.key url)) = .ok data →
      env.loadMem data = .ok img → img.u8Based = true →
      fetch_img env img_cache url s1 =
        .disk (.ok (load_texture url
          (ColorImage.from_rgba_unmultiplied img.width img.height img)))) := by
  constructor
  · simp [fetch_img, hexists]
  · intro data img hread hload h8
    simp [fetch_img, hexists, fetch_img_from_disk, hread, hload,
      DynImage.as_flat_samples_u8, h8]

/-- Witness for `fetch_img_disk_ignores_size` at two different sizes. -/
theorem fetch_img_disk_ignores_size_witness :
    fetch_img envDisk ⟨"/cache"⟩ "https://example.com/a.png" 16 =
      fetch_img envDisk ⟨"/cache"⟩ "https://example.com/a.png" 64 ∧
    fetch_img envDisk ⟨"/cache"⟩ "https://example.com/a.png" 16 =
      .disk (.ok (load_texture "https://example.com/a.png"
        (ColorImage.from_rgba_unmultiplied dyn1.width dyn1.height dyn1))) := by
  have h := fetch_img_disk_ignores_size envDisk ⟨"/cache"⟩
    "https://example.com/a.png" 16 64 rfl
  exact ⟨h.1, h.2 [2] dyn1 rfl rfl rfl⟩

end Notedeck
